import Mathlib

/-!
Shallow embedding of the ad-processor priority-queue service.

Conventions of the embedding:
* Go `time.Time` values are Unix timestamps in seconds, modelled as `Nat`;
  `time.Duration` values are modelled in seconds as `Nat`.
* Effects are made explicit: methods that read the clock take a `now`
  parameter; `uuid.New()` becomes an `id` parameter.
* Redis sorted-set scores are Go `float64`, but every score computed by the
  program is a non-negative integer below `6 * 10^10 < 2^53`, on which
  `float64` arithmetic is exact; scores are therefore modelled as `Nat`.
* Go methods that mutate the receiver and may return an error are modelled
  as pure functions returning `Except e α`; an `error` result corresponds to
  the Go method returning an error and leaving the receiver unchanged.
-/

namespace AdProc

/-! ## Domain layer: internal/domain/ad/ad.go, errors.go -/

/-- `AdStatus` from internal/domain/ad/ad.go. -/
inductive AdStatus where
  | queued
  | processing
  | completed
  | failed
deriving DecidableEq, Repr

/-- `Priority` from internal/domain/ad/ad.go: a Go `int`. -/
abbrev Priority := Int

/-- `PriorityHigh = 5` from internal/domain/ad/ad.go. -/
def PriorityHigh : Priority := 5

/-- `Priority.IsValid` from internal/domain/ad/ad.go: `p >= 1 && p <= 5`. -/
def Priority.IsValid (p : Priority) : Bool :=
  1 ≤ p && p ≤ 5

/-- Domain errors from internal/domain/ad/errors.go. -/
inductive AdError where
  | invalidTitle
  | invalidGameFamily
  | invalidTargetAudience
  | invalidPriority
  | invalidStatusTransition
  | cannotChangePriorityAfterProcessing
deriving DecidableEq, Repr

/-- The `Ad` aggregate from internal/domain/ad/ad.go.  Timestamps are Unix
seconds; the `id` is the uuid string. -/
structure Ad where
  id : String
  title : String
  gameFamily : String
  targetAudience : List String
  priority : Priority
  maxWaitTime : Nat
  status : AdStatus
  createdAt : Nat
  processingStartedAt : Option Nat
  processedAt : Option Nat
  queuePosition : Option Int
  version : Int
deriving DecidableEq, Repr

/-- `Factory.CreateAd` from the ad factory (package ad): validates the
fields and builds a QUEUED ad with `version = 1` and null timestamps.  The
generated uuid and `time.Now()` are passed in as `id` and `now`. -/
def CreateAd (id title gameFamily : String) (targetAudience : List String)
    (priority : Priority) (maxWaitTime : Nat) (now : Nat) : Except AdError Ad :=
  if title = "" then .error .invalidTitle
  else if gameFamily = "" then .error .invalidGameFamily
  else if targetAudience = [] then .error .invalidTargetAudience
  else if !priority.IsValid then .error .invalidPriority
  else .ok
    { id := id
      title := title
      gameFamily := gameFamily
      targetAudience := targetAudience
      priority := priority
      maxWaitTime := maxWaitTime
      status := .queued
      createdAt := now
      processingStartedAt := none
      processedAt := none
      queuePosition := none
      version := 1 }

/-- `Ad.StartProcessing` from internal/domain/ad/ad.go lines 93-105. -/
def Ad.StartProcessing (a : Ad) (now : Nat) : Except AdError Ad :=
  if a.status ≠ .queued then .error .invalidStatusTransition
  else .ok { a with
    status := .processing
    processingStartedAt := some now
    queuePosition := none
    version := a.version + 1 }

/-- `Ad.CompleteProcessing` from internal/domain/ad/ad.go lines 107-118. -/
def Ad.CompleteProcessing (a : Ad) (now : Nat) : Except AdError Ad :=
  if a.status ≠ .processing then .error .invalidStatusTransition
  else .ok { a with
    status := .completed
    processedAt := some now
    version := a.version + 1 }

/-- `Ad.FailProcessing` from internal/domain/ad/ad.go lines 120-129.
Note: unlike `CompleteProcessing`, it does not touch `processedAt`. -/
def Ad.FailProcessing (a : Ad) : Except AdError Ad :=
  if a.status ≠ .processing then .error .invalidStatusTransition
  else .ok { a with
    status := .failed
    version := a.version + 1 }

/-- `Ad.ChangePriority` from internal/domain/ad/ad.go lines 131-144.
The guard rejects only PROCESSING and COMPLETED. -/
def Ad.ChangePriority (a : Ad) (newPriority : Priority) : Except AdError Ad :=
  if !newPriority.IsValid then .error .invalidPriority
  else if a.status = .processing ∨ a.status = .completed then
    .error .cannotChangePriorityAfterProcessing
  else .ok { a with
    priority := newPriority
    version := a.version + 1 }

/-- A status-transition invocation on an `Ad` (the method calls of §4.1:
`start_processing`, `complete_processing`, `fail_processing`). -/
inductive TransitionEvent where
  | start (now : Nat)
  | complete (now : Nat)
  | fail
deriving DecidableEq, Repr

/-- Apply one transition method call; a failed call (Go: method returns an
error) leaves the ad unchanged, exactly as in the source. -/
def applyTransition (a : Ad) (e : TransitionEvent) : Ad :=
  match e with
  | .start now => (a.StartProcessing now).toOption.getD a
  | .complete now => (a.CompleteProcessing now).toOption.getD a
  | .fail => a.FailProcessing.toOption.getD a

/-- Run a sequence of status-transition invocations. -/
def runTransitions (a : Ad) (es : List TransitionEvent) : Ad :=
  es.foldl applyTransition a

/-! ## Cache layer: internal/infrastructure/cache/redis_queue_manager.go

A Redis sorted set (one queue shard) is modelled as an association list
`id ↦ score`; the whole queue state is the list of its `shardCount` shards
(`queue:shard:0` … `queue:shard:N-1`).  Every score the program ever writes
is a non-negative integer `< 6 * 10^10 < 2^53`, so `float64` arithmetic on
scores is exact and scores are modelled as `Nat`. -/

/-- One Redis sorted set `queue:shard:i`, as an association list
`member ↦ score`.  Its entries have pairwise distinct members. -/
abbrev Shard := List (String × Nat)

/-- Redis `ZSCORE shard member`: the score of a member, if present. -/
def zscore (sh : Shard) (id : String) : Option Nat :=
  (sh.find? (fun e => e.1 = id)).map (fun e => e.2)

/-- Redis `ZADD shard score member`: upserts the member's score. -/
def zadd (sh : Shard) (id : String) (score : Nat) : Shard :=
  if (sh.find? (fun e => e.1 = id)).isSome then
    sh.map (fun e => if e.1 = id then (id, score) else e)
  else
    sh ++ [(id, score)]

/-- Redis `ZREM shard member`. -/
def zrem (sh : Shard) (id : String) : Shard :=
  sh.filter (fun e => e.1 ≠ id)

/-- Redis `ZCOUNT shard "(s" "+inf"`: number of members with score
strictly greater than `s`. -/
def zcountGT (sh : Shard) (s : Nat) : Nat :=
  (sh.filter (fun e => s < e.2)).length

/-- `QueueConfig` from internal/domain/queue/queue.go (the two fields the
anti-starvation pass consults); `MaxWaitTime` in seconds. -/
structure QueueConfig where
  antiStarvationEnabled : Bool
  maxWaitTime : Nat
deriving DecidableEq, Repr

/-- Wrap an integer into the signed 64-bit range, the effect of Go's
wrapping `int` arithmetic.  Composing Go's wrapping ops and wrapping once
at the end agree, so the hash step below wraps its composite expression. -/
def int64wrap (x : Int) : Int :=
  (x + 2 ^ 63) % 2 ^ 64 - 2 ^ 63

/-- The loop body of `getShardKey`/`hashAdID` from redis_queue_manager.go:
`hash = int(c) + ((hash << 5) - hash)` on Go's wrapping `int`. -/
def hashStep (h : Int) (c : Char) : Int :=
  int64wrap ((c.toNat : Int) + (h * 32 - h))

/-- The hash inside `getShardKey` (redis_queue_manager.go lines 33-46),
folded over the runes of the id string. -/
def hashAdID (id : String) : Int :=
  id.toList.foldl hashStep 0

/-- The shard index chosen by `getShardKey`: `hash % shardCount`, negated
if negative.  Go's `%` truncates toward zero (`Int.tmod`), so the result is
`(hash.tmod shardCount).natAbs`. -/
def getShardIdx (id : String) (shardCount : Nat) : Nat :=
  ((hashAdID id).tmod (shardCount : Int)).natAbs

/-- `calculateScore` from redis_queue_manager.go lines 50-60:
`priority * 10^10 + (9999999999 - unixSeconds)`.  Valid for timestamps up
to `9999999999` (year 2286), within which the subtraction is exact. -/
def calculateScore (priority : Nat) (unixSeconds : Nat) : Nat :=
  priority * 10000000000 + (9999999999 - unixSeconds)

/-- `UpdatePriority` from redis_queue_manager.go lines 197-226: look up the
current score in the id's shard (error when absent), keep its timestamp
part, and `ZADD` back `newPriority * 10^10 + timestampPart`. -/
def UpdatePriority (st : List Shard) (id : String) (newPriority : Nat) :
    Except String (List Shard) :=
  let i := getShardIdx id st.length
  match zscore (st.getD i []) id with
  | none => .error ("ad not found in queue: " ++ id)
  | some currentScore =>
    let timestampPart := currentScore - (currentScore / 10000000000) * 10000000000
    let newScore := newPriority * 10000000000 + timestampPart
    .ok (st.set i (zadd (st.getD i []) id newScore))

/-- `GetPosition` from redis_queue_manager.go lines 245-270: the target's
score is read from its own shard (error when absent); then items with a
strictly greater score are counted in every shard (`ZCOUNT ("(s", "+inf")`
for `i = 0 … shardCount-1`) and the 1-indexed position is the sum plus 1. -/
def GetPosition (st : List Shard) (id : String) : Except String Nat :=
  let i := getShardIdx id st.length
  match zscore (st.getD i []) id with
  | none => .error ("ad not found in queue: " ++ id)
  | some targetScore =>
    .ok ((st.map (fun sh => zcountGT sh targetScore)).sum + 1)

/-- `ZREVRANGE shard 0 0 WITHSCORES`: the member with the highest score of
a shard (ties resolved by the list's order, standing in for Redis's member
order). -/
def peekTop : Shard → Option (String × Nat)
  | [] => none
  | e :: rest =>
    match peekTop rest with
    | none => some e
    | some b => if b.2 > e.2 then some b else some e

/-- The peek loop of `Dequeue` (redis_queue_manager.go lines 89-110): scan
the shards in index order, keeping the entry with the strictly highest
score together with its shard index (`result[0].Score > bestItem.Score`:
the earlier shard wins ties). -/
def bestAcross : List Shard → Nat → Option (Nat × String × Nat)
  | [], _ => none
  | sh :: rest, i =>
    let tail := bestAcross rest (i + 1)
    match peekTop sh with
    | none => tail
    | some e =>
      match tail with
      | none => some (i, e.1, e.2)
      | some b => if b.2.2 > e.2 then tail else some (i, e.1, e.2)

/-- `Dequeue` from redis_queue_manager.go lines 84-131: peek the top entry
of every shard, pick the globally best, `ZREM` it from its shard and
return it (id and the priority decoded as `int(score / 10^10)`).  When
every shard is empty it returns `(nil, nil)`: no item and no error, state
untouched. -/
def Dequeue (st : List Shard) : Option (String × Nat) × List Shard :=
  match bestAcross st 0 with
  | none => (none, st)
  | some (i, id, score) =>
    (some (id, score / 10000000000), st.set i (zrem (st.getD i []) id))

/-- The per-entry body of `ApplyAntiStarvation` (redis_queue_manager.go
lines 384-411): decode `(priority, timestampPart)` from the score, recover
the enqueue timestamp, compute the age, and when `age > MaxWaitTime` and
`priority < 5` write back the score with priority boosted by
`int(age.Minutes() / 5)` capped at 5 and the timestamp part unchanged. -/
def applyAntiStarvationEntry (cfg : QueueConfig) (now : Nat) (e : String × Nat) :
    String × Nat :=
  let score := e.2
  let priority := score / 10000000000
  let timestampPart := score - priority * 10000000000
  let actualTimestamp := 9999999999 - timestampPart
  let age := now - actualTimestamp
  if cfg.maxWaitTime < age ∧ priority < 5 then
    let boost := age / 300
    let newPriority := if 5 < priority + boost then 5 else priority + boost
    (e.1, newPriority * 10000000000 + timestampPart)
  else
    e

/-- `ApplyAntiStarvation` from redis_queue_manager.go lines 367-415: when
enabled, rewrite each entry of each shard by the per-entry rule (the `ZADD`
writes back under the same member, so the pass is a per-entry map). -/
def ApplyAntiStarvation (cfg : QueueConfig) (now : Nat) (st : List Shard) :
    List Shard :=
  if cfg.antiStarvationEnabled then
    st.map (fun sh => sh.map (applyAntiStarvationEntry cfg now))
  else
    st

/-! ## Domain queue helper: internal/domain/queue/queue.go

`calculateScore` there is a different formula from the cache layer's:
`float64(priority) * 1000000 + float64(timestamp.Unix()) / 1000000000`.
The result is fractional, so it is modelled over `ℚ`; for priorities in
[1..5] and timestamps below `2^36` seconds the `float64` computation is
exact enough that the strict orderings proved below agree with it (the unit
of a one-second timestamp step, `10^-9`, far exceeds the rounding error of
the division). -/

/-- `calculateScore` from internal/domain/queue/queue.go lines 42-51, the
score stored in a domain `QueueItem`. -/
def queueItemScore (priority : ℚ) (unixSeconds : ℚ) : ℚ :=
  priority * 1000000 + unixSeconds / 1000000000

/-! ## Persistence layer: internal/infrastructure/persistence/memory_ad_repository.go

The repository's Go map `map[string]*ad.Ad` is modelled as a function
`String → Option Ad`. -/

/-- The in-memory ad store (`MemoryAdRepository.ads`). -/
abbrev Store := String → Option Ad

/-- Map insertion `r.ads[id] = a`. -/
def Store.insert (s : Store) (id : String) (a : Ad) : Store :=
  fun k => if k = id then some a else s k

/-- `MemoryAdRepository.UpdatePriorityBatch` from
memory_ad_repository.go lines 108-121: walk the ids in order; for each id
present in the map call `ChangePriority` on it, and return an error as soon
as one such call fails — the ads mutated before the failure keep their new
priority (the Go code mutates in place and returns mid-loop).  The result
is the store as left behind together with the error, if any. -/
def UpdatePriorityBatch (store : Store) (ids : List String)
    (newPriority : Priority) : Store × Option String :=
  match ids with
  | [] => (store, none)
  | id :: rest =>
    match store id with
    | none => UpdatePriorityBatch store rest newPriority
    | some a =>
      match a.ChangePriority newPriority with
      | .error _ => (store, some ("failed to update priority for ad " ++ id))
      | .ok a2 => UpdatePriorityBatch (store.insert id a2) rest newPriority

/-- Modelled from the spec: `PostgresAdRepository.UpdatePriorityBatch`
(src/unnamed/part_001 lines 304-337) runs, inside one transaction that is
rolled back on any error, `UPDATE ads SET priority = $1, version =
version + 1 WHERE ad_id = $2 AND status = 'queued'` for each id.  As a pure
function on the committed state: every row whose id is listed and whose
status is QUEUED gets the new priority and `version + 1` (once per
occurrence of its id in the list); all other rows are unchanged.  An
aborted transaction leaves the store untouched, so the error case is the
identity. -/
def postgresUpdatePriorityBatch (store : Store) (ids : List String)
    (newPriority : Priority) : Store :=
  match ids with
  | [] => store
  | id :: rest =>
    let store2 : Store := fun k =>
      match store k with
      | some a =>
        if k = id ∧ a.status = .queued then
          some { a with priority := newPriority, version := a.version + 1 }
        else
          some a
      | none => none
    postgresUpdatePriorityBatch store2 rest newPriority

/-! ## Command layer: internal/domain/command (package command) and
internal/infrastructure/external/mock_command_parser.go -/

/-- A value in a command's `parameters map[string]interface{}`: the mock
parser only ever stores `int` and `string` values. -/
inductive ParamValue where
  | int (n : Int)
  | str (s : String)
deriving DecidableEq, Repr

/-- `CommandType` from the command domain package. -/
inductive CommandType where
  | queueModification
  | systemConfiguration
  | statusQuery
  | analytics
deriving DecidableEq, Repr

/-- `Command` from the command domain package, restricted to the fields
the parser and validator consult (`intent`, `parameters`). -/
structure Command where
  intent : String
  commandType : CommandType
  params : List (String × ParamValue)
deriving DecidableEq, Repr

/-- `Command.GetParameter`: map lookup in `parameters`. -/
def Command.GetParameter (c : Command) (key : String) : Option ParamValue :=
  (c.params.find? (fun e => e.1 = key)).map (fun e => e.2)

/-- `Command.GetIntParameter`: present and an integer. -/
def Command.GetIntParameter (c : Command) (key : String) : Option Int :=
  match c.GetParameter key with
  | some (.int n) => some n
  | _ => none

/-- `Command.GetStringParameter`: present and a string. -/
def Command.GetStringParameter (c : Command) (key : String) : Option String :=
  match c.GetParameter key with
  | some (.str s) => some s
  | _ => none

/-- `Command.GetPriorityParameter`: an integer parameter that satisfies
`Priority.IsValid`. -/
def Command.GetPriorityParameter (c : Command) (key : String) : Option Priority :=
  match c.GetIntParameter key with
  | some n => if Priority.IsValid n then some n else none
  | none => none

/-- `parseSetMaxWaitTime` from mock_command_parser.go lines 187-209, after
the regex `set maximum wait time to (\d+) seconds?` has matched: the
captured digits parse (via `strconv.Atoi`) to the non-negative integer
`seconds`, and the command built has intent `set_max_wait_time` and the
single parameter `seconds`. -/
def parseSetMaxWaitTime (seconds : Nat) : Command :=
  { intent := "set_max_wait_time"
    commandType := .systemConfiguration
    params := [("seconds", .int (seconds : Int))] }

/-- `MockCommandParser.ValidateCommand` from mock_command_parser.go lines
212-247: a switch on the intent checking only what the source checks — for
`set_max_wait_time`, merely that an integer `seconds` parameter exists (no
positivity check); unknown intents pass. -/
def ValidateCommand (c : Command) : Except String Unit :=
  if c.intent = "change_priority_by_game_family" then
    if (c.GetPriorityParameter "priority").isNone then
      .error "missing or invalid priority parameter"
    else if (c.GetStringParameter "gameFamily").isNone then
      .error "missing gameFamily parameter"
    else .ok ()
  else if c.intent = "change_priority_by_age" then
    if (c.GetPriorityParameter "priority").isNone then
      .error "missing or invalid priority parameter"
    else if (c.GetIntParameter "minutes").isNone then
      .error "missing minutes parameter"
    else .ok ()
  else if c.intent = "show_next_ads" then
    match c.GetIntParameter "count" with
    | some n => if n ≤ 0 then .error "missing or invalid count parameter" else .ok ()
    | none => .error "missing or invalid count parameter"
  else if c.intent = "waiting_ads" then
    if (c.GetIntParameter "minutes").isNone then
      .error "missing minutes parameter"
    else .ok ()
  else if c.intent = "set_max_wait_time" then
    if (c.GetIntParameter "seconds").isNone then
      .error "missing seconds parameter"
    else .ok ()
  else .ok ()

/-! ## Concrete fixtures used by witnesses and counterexamples -/

/-- A freshly created QUEUED ad (the state `CreateAd` produces). -/
def adQueuedEx : Ad :=
  { id := "ad-1", title := "title", gameFamily := "fam",
    targetAudience := ["aud"], priority := 3, maxWaitTime := 60,
    status := .queued, createdAt := 100, processingStartedAt := none,
    processedAt := none, queuePosition := none, version := 1 }

/-- A second QUEUED ad. -/
def adQueuedEx2 : Ad :=
  { adQueuedEx with id := "ad-2", priority := 2 }

/-- An ad driven to FAILED through the status machine
(`start_processing` then `fail_processing`). -/
def adFailedEx : Ad :=
  runTransitions adQueuedEx [.start 101, .fail]

/-- An ad driven to PROCESSING through the status machine. -/
def adProcessingEx : Ad :=
  runTransitions adQueuedEx2 [.start 101]

/-- A store holding one FAILED and one PROCESSING ad. -/
def storeFailProcEx : Store := fun k =>
  if k = "ad-1" then some adFailedEx
  else if k = "ad-2" then some adProcessingEx
  else none

/-- A store holding a single QUEUED ad. -/
def storeQueuedEx : Store := fun k =>
  if k = "ad-1" then some adQueuedEx else none

end AdProc

namespace AdProc

/-! ## Theorems -/

/-- Helper: `ChangePriority` succeeds and is fully determined on a valid
priority when the status guard passes. -/
theorem changePriority_ok_of_guard (a : Ad) (p : Priority)
    (hv : Priority.IsValid p = true)
    (h1 : a.status ≠ .processing) (h2 : a.status ≠ .completed) :
    a.ChangePriority p = .ok { a with priority := p, version := a.version + 1 } := by
  simp [Ad.ChangePriority, hv]
  exact ⟨h1, h2⟩

/-- Claim C5: the item status machine allows only the edges
QUEUED → PROCESSING → {COMPLETED, FAILED}: `start_processing` succeeds iff
the status is QUEUED, `complete_processing` and `fail_processing` succeed
iff the status is PROCESSING, and every other invocation fails with the
invalid-state error leaving the item unchanged; in particular a second
`start_processing` fails, and `complete_processing` from QUEUED fails. -/
theorem statusMachine_edges (a : Ad) (now : Nat) :
    ((∃ b, a.StartProcessing now = .ok b) ↔ a.status = .queued)
    ∧ ((∃ b, a.CompleteProcessing now = .ok b) ↔ a.status = .processing)
    ∧ ((∃ b, a.FailProcessing = .ok b) ↔ a.status = .processing)
    ∧ (a.status ≠ .queued → a.StartProcessing now = .error .invalidStatusTransition)
    ∧ (a.status ≠ .processing → a.CompleteProcessing now = .error .invalidStatusTransition)
    ∧ (a.status ≠ .processing → a.FailProcessing = .error .invalidStatusTransition)
    ∧ (∀ b now2, a.StartProcessing now = .ok b →
        b.StartProcessing now2 = .error .invalidStatusTransition)
    ∧ (a.status = .queued → a.CompleteProcessing now = .error .invalidStatusTransition) := by
  refine ⟨?_, ?_, ?_, ?_, ?_, ?_, ?_, ?_⟩
  · by_cases h : a.status = .queued <;> simp [Ad.StartProcessing, h]
  · by_cases h : a.status = .processing <;> simp [Ad.CompleteProcessing, h]
  · by_cases h : a.status = .processing <;> simp [Ad.FailProcessing, h]
  · intro h; simp [Ad.StartProcessing, h]
  · intro h; simp [Ad.CompleteProcessing, h]
  · intro h; simp [Ad.FailProcessing, h]
  · intro b now2 hb
    by_cases h : a.status = .queued
    · simp [Ad.StartProcessing, h] at hb
      simp [Ad.StartProcessing, ← hb]
    · simp [Ad.StartProcessing, h] at hb
  · intro h; simp [Ad.CompleteProcessing, h]

/-- Witness for C5: on a concrete QUEUED ad, `complete_processing` fails
with the invalid-state error. -/
theorem statusMachine_edges_witness :
    adQueuedEx.CompleteProcessing 101 = .error .invalidStatusTransition :=
  (statusMachine_edges adQueuedEx 101).2.2.2.2.2.2.2 (by decide)

/-- Claim C6 counterexample: a FAILED ad (reached through the status machine) is
not QUEUED, yet `change_priority` on it succeeds, changing the priority and
incrementing the version — the guard only rejects PROCESSING and
COMPLETED, so the claim "rejected whenever the status is not QUEUED,
including FAILED" is false. -/
theorem changePriority_failed_accepted :
    adFailedEx.status = .failed
    ∧ Priority.IsValid 2 = true
    ∧ adFailedEx.ChangePriority 2 =
        .ok { adFailedEx with priority := 2, version := adFailedEx.version + 1 } :=
  ⟨rfl, rfl, rfl⟩

/-- Claim C6 (amended): `change_priority` with a valid new priority is rejected
with the cannot-change-after-processing error exactly when the status is
PROCESSING or COMPLETED, leaving the item unchanged; it succeeds — setting
the priority and incrementing the version — when the status is QUEUED or
FAILED. -/
theorem changePriority_guard (a : Ad) (p : Priority) :
    ((∃ b, a.ChangePriority p = .ok b) ↔
      (Priority.IsValid p = true ∧ a.status ≠ .processing ∧ a.status ≠ .completed))
    ∧ (Priority.IsValid p = true → a.status = .processing ∨ a.status = .completed →
        a.ChangePriority p = .error .cannotChangePriorityAfterProcessing)
    ∧ (Priority.IsValid p = true → a.status = .queued ∨ a.status = .failed →
        a.ChangePriority p = .ok { a with priority := p, version := a.version + 1 }) := by
  refine ⟨?_, ?_, ?_⟩
  · constructor
    · rintro ⟨b, hb⟩
      by_cases hv : Priority.IsValid p = true
      · by_cases hs1 : a.status = .processing
        · simp [Ad.ChangePriority, hv, hs1] at hb
        · by_cases hs2 : a.status = .completed
          · simp [Ad.ChangePriority, hv, hs1, hs2] at hb
          · exact ⟨hv, hs1, hs2⟩
      · have hf : Priority.IsValid p = false := by
          cases h : Priority.IsValid p
          · rfl
          · exact absurd h hv
        simp [Ad.ChangePriority, hf] at hb
    · rintro ⟨hv, hs1, hs2⟩
      exact ⟨_, changePriority_ok_of_guard a p hv hs1 hs2⟩
  · intro hv hs
    simp [Ad.ChangePriority, hv, hs]
  · intro hv hs
    refine changePriority_ok_of_guard a p hv ?_ ?_ <;>
      rcases hs with h | h <;> simp [h]

/-- Witness for C6 (amended): on a concrete QUEUED ad, changing the
priority to 4 succeeds with the version bumped. -/
theorem changePriority_guard_witness :
    adQueuedEx.ChangePriority 4 =
      .ok { adQueuedEx with priority := 4, version := adQueuedEx.version + 1 } :=
  (changePriority_guard adQueuedEx 4).2.2 (by decide) (by decide)

/-- Claim C7 counterexample: driving a fresh ad QUEUED → PROCESSING → FAILED via
`start_processing` then `fail_processing` succeeds, yet leaves
`processed_at` null while the status is FAILED — `fail_processing` never
sets `processed_at`, so "processed_at is non-null iff status ∈
{COMPLETED, FAILED}" is false. -/
theorem failProcessing_leaves_processedAt_null :
    adFailedEx.status = .failed ∧ adFailedEx.processedAt = none := by
  decide

/-- Helper: one status-transition method call preserves the invariant
"processed_at is non-null iff the status is COMPLETED". -/
theorem processedAt_inv_applyTransition (a : Ad) (e : TransitionEvent)
    (h : a.processedAt.isSome = true ↔ a.status = .completed) :
    (applyTransition a e).processedAt.isSome = true
      ↔ (applyTransition a e).status = .completed := by
  cases e with
  | start now =>
    by_cases hs : a.status = .queued
    · have hnone : a.processedAt.isSome = false := by
        cases hp : a.processedAt.isSome
        · rfl
        · rw [h] at hp; rw [hp] at hs; cases hs
      simp [applyTransition, Ad.StartProcessing, Except.toOption, hs, hnone]
    · simpa [applyTransition, Ad.StartProcessing, hs] using h
  | complete now =>
    by_cases hs : a.status = .processing
    · simp [applyTransition, Ad.CompleteProcessing, Except.toOption, hs]
    · simpa [applyTransition, Ad.CompleteProcessing, hs] using h
  | fail =>
    by_cases hs : a.status = .processing
    · have hnone : a.processedAt.isSome = false := by
        cases hp : a.processedAt.isSome
        · rfl
        · rw [h] at hp; rw [hp] at hs; cases hs
      simp [applyTransition, Ad.FailProcessing, Except.toOption, hs, hnone]
    · simpa [applyTransition, Ad.FailProcessing, hs] using h

/-- Helper: the invariant is preserved by any sequence of transition
invocations. -/
theorem processedAt_inv_runTransitions (a : Ad) (es : List TransitionEvent)
    (h : a.processedAt.isSome = true ↔ a.status = .completed) :
    (runTransitions a es).processedAt.isSome = true
      ↔ (runTransitions a es).status = .completed := by
  induction es generalizing a with
  | nil => exact h
  | cons e es ih =>
    exact ih (applyTransition a e) (processedAt_inv_applyTransition a e h)

/-- Claim C7 (amended): for every item created through the factory, after any
sequence of status-transition invocations (failed invocations leave the
item unchanged, as in the source), `processed_at` is non-null iff the
status is COMPLETED — not "COMPLETED or FAILED": a successful
`fail_processing` leaves `processed_at` untouched (null for an item that
was never completed). -/
theorem processedAt_iff_completed (id title gameFamily : String)
    (aud : List String) (p : Priority) (mw now : Nat) (a : Ad)
    (es : List TransitionEvent)
    (hc : CreateAd id title gameFamily aud p mw now = .ok a) :
    (runTransitions a es).processedAt.isSome = true
      ↔ (runTransitions a es).status = .completed := by
  have h : a.processedAt.isSome = true ↔ a.status = .completed := by
    unfold CreateAd at hc
    repeat' split at hc
    all_goals cases hc
    simp
  exact processedAt_inv_runTransitions a es h

/-- Witness for C7 (amended): a concrete ad created by the factory, taken
through start/fail/complete attempts, satisfies the invariant. -/
theorem processedAt_iff_completed_witness :
    ∃ a, CreateAd "ad-1" "title" "fam" ["aud"] 3 60 100 = .ok a
      ∧ ((runTransitions a [.start 101, .fail, .complete 102]).processedAt.isSome = true
          ↔ (runTransitions a [.start 101, .fail, .complete 102]).status = .completed) := by
  refine ⟨adQueuedEx, rfl, ?_⟩
  exact processedAt_iff_completed "ad-1" "title" "fam" ["aud"] 3 60 100 adQueuedEx
    [.start 101, .fail, .complete 102] rfl

/-- Claim C1 counterexample: the score helper of internal/domain/queue/queue.go
(`priority * 10^6 + unix / 10^9`) gives, at equal priority 3, the OLDER
entry (timestamp 100) a strictly SMALLER score than the newer entry
(timestamp 200), so under that cited encoding the older entry does not get
the strictly greater score the claim requires. -/
theorem queueItemScore_newer_wins :
    ¬ queueItemScore 3 100 > queueItemScore 3 200
    ∧ queueItemScore 3 100 < queueItemScore 3 200 := by
  constructor <;> norm_num [queueItemScore]

/-- Claim C1 (amended): the operative queue encoding — `calculateScore` of the
Redis queue manager, `score = priority * 10^10 + (9999999999 - t)` — is
order-correct for priorities in [1..5] and timestamps in
[0, 9999999999]: strictly higher priority gives a strictly greater score
regardless of timestamps, and at equal priority the older (smaller)
timestamp gives the strictly greater score, so it is dequeued first.  (The
unused domain helper in queue/queue.go orders newer-first within a band;
see the counterexample.) -/
theorem calculateScore_order_correct (p1 p2 t1 t2 : Nat)
    (hp1 : 1 ≤ p1) (hp1' : p1 ≤ 5) (hp2 : 1 ≤ p2) (hp2' : p2 ≤ 5)
    (ht1 : t1 ≤ 9999999999) (ht2 : t2 ≤ 9999999999) :
    (p2 < p1 → calculateScore p2 t2 < calculateScore p1 t1)
    ∧ (p1 = p2 → t1 < t2 → calculateScore p2 t2 < calculateScore p1 t1) := by
  unfold calculateScore
  omega

/-- Witness for C1 (amended): priority 5 enqueued later still beats
priority 3 enqueued earlier, and within priority 3 the older entry beats
the newer one. -/
theorem calculateScore_order_correct_witness :
    calculateScore 3 1000000000 < calculateScore 5 1000000050
    ∧ calculateScore 3 1000000050 < calculateScore 3 1000000000 := by
  refine ⟨?_, ?_⟩
  · exact (calculateScore_order_correct 5 3 1000000050 1000000000
      (by decide) (by decide) (by decide) (by decide) (by decide) (by decide)).1 (by decide)
  · exact (calculateScore_order_correct 3 3 1000000000 1000000050
      (by decide) (by decide) (by decide) (by decide) (by decide) (by decide)).2 rfl (by decide)

/-- Helper: after a `ZADD`, the member's score reads back as written. -/
theorem zscore_zadd_self (sh : Shard) (id : String) (v : Nat) :
    zscore (zadd sh id v) id = some v := by
  induction sh with
  | nil => simp [zadd, zscore]
  | cons e sh ih =>
    by_cases he : e.1 = id
    · simp [zadd, zscore, List.find?, he]
    · have hd : decide (e.1 = id) = false := by simpa using he
      simp only [zadd, List.find?_cons, hd] at ih ⊢
      cases hf : (List.find? (fun e => decide (e.1 = id)) sh).isSome with
      | true =>
        simp only [hf, if_true] at ih ⊢
        simpa [zscore, List.find?_cons, List.map_cons, hd, he] using ih
      | false =>
        simp only [hf, if_false] at ih ⊢
        simpa [zscore, List.find?_cons, hd, he] using ih

/-- Helper: Go's `%` (truncating remainder) followed by negation-on-negative
lands strictly below a positive modulus. -/
theorem natAbs_tmod_lt (a : Int) (n : Nat) (hn : 0 < n) :
    (a.tmod (n : Int)).natAbs < n := by
  cases a with
  | ofNat m => simpa [Int.tmod] using Nat.mod_lt m hn
  | negSucc m => simpa [Int.tmod] using Nat.mod_lt (m + 1) hn

/-- Helper: the successful branch of `UpdatePriority`, as an equation. -/
theorem updatePriority_eq_of_present (st : List Shard) (id : String)
    (newPriority : Nat) (s : Nat)
    (hs : zscore (st.getD (getShardIdx id st.length) []) id = some s) :
    UpdatePriority st id newPriority =
      .ok (st.set (getShardIdx id st.length)
        (zadd (st.getD (getShardIdx id st.length) []) id
          (newPriority * 10000000000 + (s - s / 10000000000 * 10000000000)))) := by
  simp only [UpdatePriority]
  rw [hs]

/-- Claim C2: for every id present in the queue (its score readable from its own
shard), `update_priority` succeeds and rewrites the entry's score to
`newPriority * 10^10` plus the time component of the OLD score (the FIFO
age is never reset); when the id is absent from its shard it fails with
the not-in-queue error. -/
theorem updatePriority_preserves_age (st : List Shard) (id : String)
    (newPriority : Nat) :
    (∀ s, zscore (st.getD (getShardIdx id st.length) []) id = some s →
      ∃ st2, UpdatePriority st id newPriority = .ok st2
        ∧ zscore (st2.getD (getShardIdx id st.length) []) id =
            some (newPriority * 10000000000 + s % 10000000000))
    ∧ (zscore (st.getD (getShardIdx id st.length) []) id = none →
      UpdatePriority st id newPriority = .error ("ad not found in queue: " ++ id)) := by
  constructor
  · intro s hs
    have hlen : getShardIdx id st.length < st.length := by
      rcases Nat.eq_zero_or_pos st.length with h0 | h0
      · rw [List.length_eq_zero] at h0
        subst h0
        simp [zscore] at hs
      · exact natAbs_tmod_lt (hashAdID id) st.length h0
    refine ⟨_, updatePriority_eq_of_present st id newPriority s hs, ?_⟩
    have hsetlen : getShardIdx id st.length <
        (st.set (getShardIdx id st.length)
          (zadd (st.getD (getShardIdx id st.length) []) id
            (newPriority * 10000000000 + (s - s / 10000000000 * 10000000000)))).length := by
      simpa using hlen
    rw [List.getD_eq_getElem _ _ hsetlen]
    rw [List.getElem_set_self]
    rw [zscore_zadd_self]
    congr 1
    omega
  · intro hs
    simp only [UpdatePriority]
    rw [hs]

/-- Witness for C2: in a one-shard queue holding the entry
("a", 3·10^10 + 50), updating the priority to 5 succeeds and the new score
is 5·10^10 plus the old time component 50. -/
theorem updatePriority_preserves_age_witness :
    ∃ st2, UpdatePriority [[("a", 30000000050)]] "a" 5 = .ok st2
      ∧ zscore (st2.getD (getShardIdx "a" (List.length [[("a", 30000000050)]])) []) "a" =
          some (5 * 10000000000 + 30000000050 % 10000000000) :=
  (updatePriority_preserves_age [[("a", 30000000050)]] "a" 5).1 30000000050 (by decide)

/-- Claim C3 counterexample: with max_wait = 600 s, an entry of priority 1 whose
age is 700 s (score 1·10^10 + 8999999999, i.e. enqueued at Unix second
10^9, scanned at 10^9 + 700): the claim's boost ⌊(age − max_wait)/300⌋ =
⌊100/300⌋ = 0 would leave the priority at 1 and the score unchanged, but
the code computes boost = ⌊age/300⌋ = ⌊700/300⌋ = 2 and rewrites the score
into the priority-3 band. -/
theorem antiStarvation_boost_uses_age :
    applyAntiStarvationEntry ⟨true, 600⟩ 1000000700 ("a", 18999999999) =
      ("a", 38999999999)
    ∧ min 5 (1 + (1000000700 - 1000000000 - 600) / 300) * 10000000000 + 8999999999 =
        18999999999
    ∧ (38999999999 : Nat) ≠ 18999999999 := by
  refine ⟨by decide, by decide, by decide⟩

/-- Claim C3 (amended): in an anti-starvation pass, for a queue entry with
decoded priority p ∈ [1..5] and time component tPart (score =
p·10^10 + tPart, enqueued at 9999999999 − tPart): if its age is at most
max_wait or its priority is 5, its score is left unchanged; otherwise its
new priority is min(5, p + boost) with boost = ⌊age / 5 min⌋ — the age
itself, not the overrun age − max_wait — and the time component of its
score is preserved. -/
theorem antiStarvationEntry_boost (cfg : QueueConfig) (now : Nat) (id : String)
    (p tPart : Nat) (hp1 : 1 ≤ p) (hp5 : p ≤ 5) (ht : tPart ≤ 9999999999) :
    (now - (9999999999 - tPart) ≤ cfg.maxWaitTime ∨ p = 5 →
      applyAntiStarvationEntry cfg now (id, p * 10000000000 + tPart) =
        (id, p * 10000000000 + tPart))
    ∧ (cfg.maxWaitTime < now - (9999999999 - tPart) → p < 5 →
      applyAntiStarvationEntry cfg now (id, p * 10000000000 + tPart) =
        (id, min 5 (p + (now - (9999999999 - tPart)) / 300) * 10000000000 + tPart)) := by
  have hdiv : (p * 10000000000 + tPart) / 10000000000 = p := by omega
  have hsub : p * 10000000000 + tPart - p * 10000000000 = tPart := by omega
  constructor
  · intro h
    simp only [applyAntiStarvationEntry, hdiv, hsub]
    rw [if_neg (by omega)]
  · intro h1 h2
    simp only [applyAntiStarvationEntry, hdiv, hsub]
    rw [if_pos ⟨h1, h2⟩]
    simp only [Prod.mk.injEq, true_and]
    split_ifs with h3
    · rw [Nat.min_eq_left (by omega)]
    · rw [Nat.min_eq_right (by omega)]

/-- Witness for C3 (amended): priority 2, time component 8999999999
(enqueued at Unix 10^9), scanned 400 s later with max_wait = 100 s: boost =
⌊400/300⌋ = 1, so the entry moves to the priority-3 band with the same
time component. -/
theorem antiStarvationEntry_boost_witness :
    applyAntiStarvationEntry ⟨true, 100⟩ 1000000400 ("b", 28999999999) =
      ("b", 38999999999) := by
  have h := (antiStarvationEntry_boost ⟨true, 100⟩ 1000000400 "b" 2 8999999999
    (by decide) (by decide) (by decide)).2 (by decide) (by decide)
  exact h.trans (by decide)

/-- Claim C4 counterexample: the in-memory `UpdatePriorityBatch` on the batch
["ad-1", "ad-2"] with new priority 2, where ad-1 is FAILED and ad-2 is
PROCESSING: the call returns an error (ad-2's guard fails), yet ad-1 — a
row whose status is not QUEUED — has already been mutated to priority 2
with its version incremented.  This refutes both "mutates exactly the
QUEUED rows" and "if it returns an error, no row is changed". -/
theorem updatePriorityBatch_not_all_or_nothing :
    adFailedEx.status = .failed
    ∧ adProcessingEx.status = .processing
    ∧ (UpdatePriorityBatch storeFailProcEx ["ad-1", "ad-2"] 2).2.isSome = true
    ∧ (UpdatePriorityBatch storeFailProcEx ["ad-1", "ad-2"] 2).1 "ad-1" =
        some { adFailedEx with priority := 2, version := adFailedEx.version + 1 } :=
  ⟨rfl, rfl, rfl, rfl⟩

/-- Claim C4 (amended): for a duplicate-free list of ids and a valid new
priority, if every listed id present in the store has a status other than
PROCESSING and COMPLETED (i.e. QUEUED or FAILED — the `ChangePriority`
guard, which also lets FAILED rows through), the in-memory
`UpdatePriorityBatch` returns no error and mutates exactly the listed
rows, setting their priority to the new value and incrementing each
affected row's version by exactly one, leaving every other row unchanged.
(It is not all-or-nothing: a listed PROCESSING or COMPLETED row aborts the
loop with an error, keeping the mutations already made — see the
counterexample.) -/
theorem updatePriorityBatch_mutates_listed_rows (ids : List String) :
    ∀ (store : Store) (p : Priority), ids.Nodup → Priority.IsValid p = true →
    (∀ id ∈ ids, ∀ a, store id = some a →
      a.status ≠ .processing ∧ a.status ≠ .completed) →
    (UpdatePriorityBatch store ids p).2 = none
    ∧ ∀ k, (UpdatePriorityBatch store ids p).1 k =
        if k ∈ ids then
          (store k).map (fun a => { a with priority := p, version := a.version + 1 })
        else store k := by
  induction ids with
  | nil =>
    intro store p _ _ _
    exact ⟨rfl, fun k => by simp [UpdatePriorityBatch]⟩
  | cons id rest ih =>
    intro store p hnd hv hguard
    obtain ⟨hid, hnd'⟩ := List.nodup_cons.mp hnd
    cases hsid : store id with
    | none =>
      have heq : UpdatePriorityBatch store (id :: rest) p =
          UpdatePriorityBatch store rest p := by
        simp only [UpdatePriorityBatch]
        rw [hsid]
      have hrec := ih store p hnd' hv
        (fun i hi a ha => hguard i (List.mem_cons_of_mem _ hi) a ha)
      rw [heq]
      refine ⟨hrec.1, fun k => ?_⟩
      rw [hrec.2 k]
      by_cases hk : k = id
      · subst hk
        simp [hid, hsid]
      · simp [List.mem_cons, hk]
    | some a =>
      obtain ⟨hs1, hs2⟩ := hguard id (List.mem_cons_self id rest) a hsid
      have hok := changePriority_ok_of_guard a p hv hs1 hs2
      have heq : UpdatePriorityBatch store (id :: rest) p =
          UpdatePriorityBatch
            (store.insert id { a with priority := p, version := a.version + 1 })
            rest p := by
        simp only [UpdatePriorityBatch, hsid, hok]
      have hrec := ih (store.insert id { a with priority := p, version := a.version + 1 })
        p hnd' hv ?_
      · rw [heq]
        refine ⟨hrec.1, fun k => ?_⟩
        rw [hrec.2 k]
        by_cases hk : k = id
        · subst hk
          simp [Store.insert, hid, hsid]
        · by_cases hkr : k ∈ rest <;>
            simp [Store.insert, hk, hkr, List.mem_cons]
      · intro i hi b hb
        have hne : i ≠ id := fun h => hid (h ▸ hi)
        rw [show (store.insert id { a with priority := p, version := a.version + 1 }) i
            = store i by simp [Store.insert, hne]] at hb
        exact hguard i (List.mem_cons_of_mem _ hi) b hb

/-- Witness for C4 (amended): a store with the single QUEUED ad "ad-1",
batch ["ad-1"] with priority 2: no error, and the row has priority 2 and
version bumped by one. -/
theorem updatePriorityBatch_mutates_listed_rows_witness :
    (UpdatePriorityBatch storeQueuedEx ["ad-1"] 2).2 = none
    ∧ (UpdatePriorityBatch storeQueuedEx ["ad-1"] 2).1 "ad-1" =
        some { adQueuedEx with priority := 2, version := adQueuedEx.version + 1 } := by
  have h := updatePriorityBatch_mutates_listed_rows ["ad-1"] storeQueuedEx 2
    (by decide) (by decide)
    (by
      intro i hi a ha
      simp only [List.mem_singleton] at hi
      subst hi
      simp only [storeQueuedEx, if_pos] at ha
      cases ha
      exact ⟨by decide, by decide⟩)
  exact ⟨h.1, (h.2 "ad-1").trans (by decide)⟩

/-- Helper: summing the per-shard strict-greater counts over all shards
equals the strict-greater count over the flattened queue. -/
theorem sum_zcountGT_eq_flatten (st : List Shard) (s : Nat) :
    (st.map (fun sh => zcountGT sh s)).sum =
      (st.flatten.filter (fun e => s < e.2)).length := by
  induction st with
  | nil => simp
  | cons sh st ih =>
    simp only [List.map_cons, List.sum_cons, List.flatten_cons, List.filter_append,
      List.length_append, zcountGT]
    simp only [zcountGT] at ih
    rw [ih]

/-- Claim C8: for every id present in the queue (score readable from its own
shard), `position(id)` returns 1 plus the number of entries with a strictly
greater score counted across ALL shards of the whole queue — equivalently,
it returns k where exactly k − 1 queued entries have a score strictly
greater than the id's score. -/
theorem getPosition_global_rank (st : List Shard) (id : String) (s : Nat)
    (hs : zscore (st.getD (getShardIdx id st.length) []) id = some s) :
    GetPosition st id =
      .ok ((st.flatten.filter (fun e => s < e.2)).length + 1) := by
  simp only [GetPosition, hs]
  rw [sum_zcountGT_eq_flatten]

/-- Witness for C8: a one-shard queue with three entries; the middle-score
entry "a" is at position 2 (exactly one entry scores strictly higher). -/
theorem getPosition_global_rank_witness :
    GetPosition [[("a", 30000000050), ("b", 40000000000), ("c", 10000000000)]] "a" =
      .ok 2 := by
  have h := getPosition_global_rank
    [[("a", 30000000050), ("b", 40000000000), ("c", 10000000000)]] "a" 30000000050
    (by decide)
  exact h.trans rfl

/-- Helper: a shard with no entries has no top element, so a queue whose
shards are all empty yields no best entry. -/
theorem bestAcross_none_of_all_empty (st : List Shard) (i : Nat)
    (h : ∀ sh ∈ st, sh = []) : bestAcross st i = none := by
  induction st generalizing i with
  | nil => rfl
  | cons sh st ih =>
    have hsh : sh = [] := h sh (List.mem_cons_self _ _)
    subst hsh
    simp only [bestAcross, peekTop]
    exact ih (i + 1) (fun sh hm => h sh (List.mem_cons_of_mem _ hm))

/-- Claim C10: dequeue on a queue in which every shard is empty returns no queue
entry and no error — the pair (nil item, nil error) of the source — and
the queue state is returned unchanged. -/
theorem dequeue_empty_queue (st : List Shard) (h : ∀ sh ∈ st, sh = []) :
    Dequeue st = (none, st) := by
  simp only [Dequeue]
  rw [bestAcross_none_of_all_empty st 0 h]

/-- Witness for C10: a two-shard queue with both shards empty. -/
theorem dequeue_empty_queue_witness :
    Dequeue [[], []] = (none, [[], []]) :=
  dequeue_empty_queue [[], []] (by decide)

/-- Claim C9 counterexample: a parsed set-max-wait command with seconds = 0
("set maximum wait time to 0 seconds" matches the parser's digit pattern
and Atoi yields 0) passes `ValidateCommand` — the validator only checks
that an integer seconds parameter exists, never that it is positive — so
the claim that it fails validation is false. -/
theorem validateCommand_accepts_zero_seconds :
    ValidateCommand (parseSetMaxWaitTime 0) = .ok ()
    ∧ (parseSetMaxWaitTime 0).GetIntParameter "seconds" = some 0 :=
  ⟨rfl, rfl⟩

/-- Claim C9 (amended): `ValidateCommand` accepts a command exactly when the
parameters it checks for the command's intent are present (and, where the
source checks it, in range): a valid priority and a gameFamily string for
change_priority_by_game_family, a valid priority and an integer minutes
for change_priority_by_age, a strictly positive integer count for
show_next_ads, an integer minutes for waiting_ads, and — for
set_max_wait_time — merely an integer seconds parameter of any value,
zero included; commands with unknown intents pass unchecked. -/
theorem validateCommand_checks_presence (c : Command) :
    ValidateCommand c = .ok () ↔
      ((c.intent = "change_priority_by_game_family" →
          (c.GetPriorityParameter "priority").isSome = true
          ∧ (c.GetStringParameter "gameFamily").isSome = true)
       ∧ (c.intent = "change_priority_by_age" →
          (c.GetPriorityParameter "priority").isSome = true
          ∧ (c.GetIntParameter "minutes").isSome = true)
       ∧ (c.intent = "show_next_ads" →
          ∃ n, c.GetIntParameter "count" = some n ∧ 0 < n)
       ∧ (c.intent = "waiting_ads" → (c.GetIntParameter "minutes").isSome = true)
       ∧ (c.intent = "set_max_wait_time" →
          (c.GetIntParameter "seconds").isSome = true)) := by
  by_cases h1 : c.intent = "change_priority_by_game_family"
  · cases hp : c.GetPriorityParameter "priority" with
    | none => simp [ValidateCommand, h1, hp]
    | some v =>
      cases hg : c.GetStringParameter "gameFamily" with
      | none => simp [ValidateCommand, h1, hp, hg]
      | some g => simp [ValidateCommand, h1, hp, hg]
  · by_cases h2 : c.intent = "change_priority_by_age"
    · cases hp : c.GetPriorityParameter "priority" with
      | none => simp [ValidateCommand, h1, h2, hp]
      | some v =>
        cases hm : c.GetIntParameter "minutes" with
        | none => simp [ValidateCommand, h1, h2, hp, hm]
        | some m => simp [ValidateCommand, h1, h2, hp, hm]
    · by_cases h3 : c.intent = "show_next_ads"
      · cases hc : c.GetIntParameter "count" with
        | none => simp [ValidateCommand, h1, h2, h3, hc]
        | some n =>
          by_cases hn : n ≤ 0
          · simp only [ValidateCommand, h1, h2, h3, hc]
            simp [hn]
            try omega
          · simp only [ValidateCommand, h1, h2, h3, hc]
            simp [hn]
            try omega
      · by_cases h4 : c.intent = "waiting_ads"
        · cases hm : c.GetIntParameter "minutes" with
          | none => simp [ValidateCommand, h1, h2, h3, h4, hm]
          | some m => simp [ValidateCommand, h1, h2, h3, h4, hm]
        · by_cases h5 : c.intent = "set_max_wait_time"
          · cases hs : c.GetIntParameter "seconds" with
            | none => simp [ValidateCommand, h1, h2, h3, h4, h5, hs]
            | some sec => simp [ValidateCommand, h1, h2, h3, h4, h5, hs]
          · simp [ValidateCommand, h1, h2, h3, h4, h5]

/-- Witness for C9 (amended): a parsed set-max-wait command with a present
integer seconds parameter (30) passes validation. -/
theorem validateCommand_checks_presence_witness :
    ValidateCommand (parseSetMaxWaitTime 30) = .ok () := by
  refine (validateCommand_checks_presence (parseSetMaxWaitTime 30)).mpr
    ⟨?_, ?_, ?_, ?_, ?_⟩ <;>
    first
      | (intro h; exact absurd h (by decide))
      | (intro h; decide)

end AdProc
